import Mathlib

/-!
Verification development for `src/beat_organizer.py` (BeatSample Organizer).

The Python module is shallowly embedded: file names and paths are `List Char`,
the external collaborators (mutagen's container reader, librosa's tempo and
chroma analyses, matplotlib's spectrogram rendering) are oracle functions that
either return a value or raise (`Except`), the PostgreSQL store is an explicit
record of table rows together with fault-injection flags modelling the SQL
statements that may raise, and `os.walk` over the scanned root is modelled by
the list of `(directory, file names)` entries it yields.  Concurrency of the
thread pool in `scan_directory_async` is modelled by linearizing the per-file
tasks in an arbitrary completion order (`order : List Nat`), while results are
collected positionally exactly as `ThreadPoolExecutor.map` does.
-/

set_option autoImplicit false

namespace BeatOrganizer

/-- A raised Python exception (message only). -/
structure PyErr where
  msg : List Char
  deriving DecidableEq, Repr

/-- ASCII lowercasing of one character, modelling `str.lower()` on the
ASCII file names considered here. -/
def lowerChar (c : Char) : Char :=
  if 'A' ≤ c ∧ c ≤ 'Z' then Char.ofNat (c.toNat + 32) else c

/-- `str.lower()` on a file name. -/
def lowerStr (s : List Char) : List Char := s.map lowerChar

/-- Python `str.endswith(suffix)`: the suffix equals the final
`suffix.length` characters.  When the suffix is longer than the string the
comparison fails because the lengths differ. -/
def hasSuffix (l s : List Char) : Bool :=
  List.drop (l.length - s.length) l == s

/-- `os.path.join(root, file)` for a root without a trailing separator. -/
def pathJoin (root file : List Char) : List Char := root ++ '/' :: file

/-- `os.path.basename`: the characters after the last `/`. -/
def basename (p : List Char) : List Char :=
  ((p.reverse.takeWhile (fun ch => ch ≠ '/')).reverse)

/-- `os.path.splitext(p).0`: strip the extension after the last dot of the
last path component.  (The CPython corner case of a component made only of
leading dots is not distinguished; the organizer only uses this to derive the
spectrogram image name.) -/
def splitextBase (p : List Char) : List Char :=
  let rev := p.reverse
  let afterDot := rev.takeWhile (fun ch => ch ≠ '.')
  if afterDot.length = rev.length then p
  else if afterDot.contains '/' then p
  else
    let stem := rev.drop (afterDot.length + 1)
    if stem.isEmpty || stem.head? = some '/' then p
    else stem.reverse

/-- Line 30: `DAW_EXTENSIONS`, the editor-name to extension table. -/
def DAW_EXTENSIONS : List (List Char × List Char) :=
  [("Ableton".toList, ".als".toList),
   ("FL Studio".toList, ".flp".toList),
   ("Logic Pro".toList, ".logicx".toList),
   ("Pro Tools".toList, ".ptx".toList)]

/-- `DAW_EXTENSIONS.values()`. -/
def dawExtValues : List (List Char) := DAW_EXTENSIONS.map (fun e => e.2)

/-- Line 38: `AUDIO_EXTENSIONS`. -/
def AUDIO_EXTENSIONS : List (List Char) :=
  [".mp3".toList, ".wav".toList, ".flac".toList, ".ogg".toList, ".aiff".toList]

/-- Line 170: `file.lower().endswith(AUDIO_EXTENSIONS)` — audio candidate
classification of one file name. -/
def isAudioName (file : List Char) : Bool :=
  AUDIO_EXTENSIONS.any (fun ext => hasSuffix (lowerStr file) ext)

/-- Line 164: `any(file.endswith(ext) for ext in DAW_EXTENSIONS.values())` —
project-file candidate classification of one file name. -/
def isDawName (file : List Char) : Bool :=
  dawExtValues.any (fun ext => hasSuffix file ext)

/-- The state of the scanned root as seen by `os.walk(directory)`:
whether the root itself is readable, and the `(root, files)` entries the walk
yields when it is.  With the default `onerror=None`, `os.walk` on a
non-existent or unreadable root swallows the `OSError` and yields nothing. -/
structure FileSystem where
  rootReadable : Bool
  entries : List (List Char × List (List Char))
  deriving DecidableEq, Repr

/-- `os.walk(directory)` with the default `onerror=None`. -/
def osWalk (fs : FileSystem) : List (List Char × List (List Char)) :=
  if fs.rootReadable then fs.entries else []

/-- Line 170: the list comprehension building `files_to_process`. -/
def files_to_process (fs : FileSystem) : List (List Char) :=
  (osWalk fs).flatMap
    (fun e => (e.2.filter (fun file => isAudioName file)).map
      (fun file => pathJoin e.1 file))

/-- Lines 160-166: `scan_daw_files` — the nested loops appending
`os.path.join(root, file)` for every file matching a DAW extension. -/
def scan_daw_files (fs : FileSystem) : List (List Char) :=
  (osWalk fs).flatMap
    (fun e => (e.2.filter (fun file => isDawName file)).map
      (fun file => pathJoin e.1 file))

/-- What `mutagen.File(path).info` exposes: `length` (seconds) and, for some
containers, `sample_rate`.  Numeric values are modelled as rationals. -/
structure ContainerInfo where
  length : ℚ
  sample_rate : Option Nat
  deriving DecidableEq, Repr

/-- The external collaborators (§6 of the spec), as oracles that may raise.
`audioFile` returns `none` when `mutagen.File` yields a falsy object or one
without `info` (the `if audio and audio.info` guard fails). -/
structure Collaborators where
  audioFile : List Char → Except PyErr (Option ContainerInfo)
  beatTrack : List Char → Except PyErr ℚ
  chromaArgmax : List Char → Except PyErr (Fin 12)
  specshow : List Char → List Char → List Char → Except PyErr Unit

/-- Python `round()` to an integer: round-half-to-even. -/
def roundHalfEven (x : ℚ) : ℤ :=
  let f : ℤ := Int.fdiv x.num x.den
  let frac : ℚ := x - (f : ℚ)
  if frac < 1/2 then f
  else if 1/2 < frac then f + 1
  else if f % 2 = 0 then f else f + 1

/-- Python `round(x, 2)` as used for the duration. -/
def pyRound2 (x : ℚ) : ℚ := ((roundHalfEven (x * 100) : ℤ) : ℚ) / 100

/-- Lines 52-59: `get_bpm` — the librosa call may raise; the handler logs and
returns `None`. -/
def get_bpm (c : Collaborators) (filepath : List Char) : Option ℤ :=
  match c.beatTrack filepath with
  | .ok tempo => some (roundHalfEven tempo)
  | .error _e => none

/-- Line 68: the twelve pitch-class labels. -/
def key_mapping : List (List Char) :=
  [['C'], ['C', '#'], ['D'], ['D', '#'], ['E'], ['F'],
   ['F', '#'], ['G'], ['G', '#'], ['A'], ['A', '#'], ['B']]

/-- Lines 62-72: `get_key` — chroma argmax indexes `key_mapping`; on any
exception the handler logs and returns `None`. -/
def get_key (c : Collaborators) (filepath : List Char) : Option (List Char) :=
  match c.chromaArgmax filepath with
  | .ok key_index => some (key_mapping.getD key_index.val [])
  | .error _e => none

/-- Lines 75-90: `generate_spectrogram` — renders to `output_image`; every
exception is caught and logged inside the function.  The swallowed error is
returned for observability; callers ignore it, as the Python function always
returns `None`. -/
def generate_spectrogram (c : Collaborators) (filepath output_image theme : List Char) :
    Option PyErr :=
  match c.specshow filepath output_image theme with
  | .ok _ => none
  | .error e => some e

/-- A row of the `samples` table. -/
structure SampleRow where
  id : Nat
  filename : List Char
  path : List Char
  duration : ℚ
  sample_rate : Option Nat
  bpm : Option ℤ
  key : Option (List Char)
  spectrogram_path : Option (List Char)
  deriving DecidableEq, Repr

/-- A row of the `sample_usage` table. -/
structure UsageRow where
  sample_id : Nat
  user_id : ℤ
  project_id : ℤ
  timestamp : Nat
  deriving DecidableEq, Repr

/-- The backing store handle: the two tables, the next generated sample id,
a clock for `NOW()`, and fault-injection flags modelling the three SQL
statements raising (`SELECT` in `get_or_create_sample`, `INSERT` into
`samples`, `INSERT` into `sample_usage`). -/
structure Store where
  samples : List SampleRow
  usage : List UsageRow
  nextId : Nat
  now : Nat
  failLookup : Bool
  failInsertSample : Bool
  failInsertUsage : Bool
  deriving DecidableEq, Repr

/-- The store operates normally (no injected faults). -/
def noFail (st : Store) : Bool :=
  !st.failLookup && !st.failInsertSample && !st.failInsertUsage

/-- `SELECT id FROM samples WHERE path = %s` followed by `fetchone()`:
the id of the first row with the given path. -/
def find_sample_id (samples : List SampleRow) (path : List Char) : Option Nat :=
  (samples.find? (fun row => row.path == path)).map (fun row => row.id)

/-- Lines 93-110: `get_or_create_sample` — look the path up; if present
return its id, otherwise insert a new row and return the generated id.  Any
error is logged and re-raised. -/
def get_or_create_sample (db : Store) (filename path : List Char) (duration : ℚ)
    (sample_rate : Option Nat) (bpm : Option ℤ) (key : Option (List Char))
    (spectrogram_path : Option (List Char)) : Except PyErr (Store × Nat) :=
  if db.failLookup then .error ⟨"samples lookup failed".toList⟩
  else
    match find_sample_id db.samples path with
    | some id => .ok (db, id)
    | none =>
      if db.failInsertSample then .error ⟨"samples insert failed".toList⟩
      else
        let id := db.nextId
        .ok ({ db with
                samples := db.samples ++
                  [⟨id, filename, path, duration, sample_rate, bpm, key, spectrogram_path⟩],
                nextId := db.nextId + 1 }, id)

/-- Lines 113-124: `track_sample_usage` — append one usage row timestamped
`NOW()` and commit.  Any error is logged and re-raised. -/
def track_sample_usage (db : Store) (sample_id : Nat) (user_id project_id : ℤ) :
    Except PyErr Store :=
  if db.failInsertUsage then .error ⟨"sample usage insert failed".toList⟩
  else
    .ok { db with
           usage := db.usage ++ [⟨sample_id, user_id, project_id, db.now⟩],
           now := db.now + 1 }

/-- Lines 142-143 of `process_file`: the registration pair — get-or-create
the sample row, then append one usage event. -/
def registerSample (db : Store) (filename path : List Char) (duration : ℚ)
    (sample_rate : Option Nat) (bpm : Option ℤ) (key : Option (List Char))
    (spectrogram_path : Option (List Char)) (user_id project_id : ℤ) :
    Except PyErr Store :=
  match get_or_create_sample db filename path duration sample_rate bpm key spectrogram_path with
  | .error e => .error e
  | .ok (db1, sid) => track_sample_usage db1 sid user_id project_id

/-- The dictionary returned by `process_file` for a successful analysis. -/
structure SampleRecord where
  sample_id : Nat
  filename : List Char
  path : List Char
  duration : ℚ
  sample_rate : Option Nat
  bpm : Option ℤ
  key : Option (List Char)
  spectrogram : Option (List Char)
  deriving DecidableEq, Repr

/-- The spectrogram output path derived at line 139:
`f"\x7bbase\x7d_spectrogram.png"`. -/
def spectrogram_output (filepath : List Char) : List Char :=
  splitextBase filepath ++ "_spectrogram.png".toList

/-- The body of the `try` in `process_file` (lines 128-154): the store is
threaded through the statements executed so far, and the second component is
the raised exception or the returned value.  `mutagen.File` may raise;
`get_bpm`, `get_key` and `generate_spectrogram` handle their own exceptions;
`get_or_create_sample` and `track_sample_usage` re-raise. -/
def process_file_try (c : Collaborators) (filepath : List Char) (generate_spec : Bool)
    (theme : List Char) (user_id project_id : ℤ) (db : Store) :
    Store × Except PyErr (Option SampleRecord) :=
  match c.audioFile filepath with
  | .error e => (db, .error e)
  | .ok none => (db, .ok none)
  | .ok (some info) =>
    let duration := pyRound2 info.length
    let sample_rate := info.sample_rate
    let bpm := get_bpm c filepath
    let key := get_key c filepath
    let spec_path : Option (List Char) :=
      if generate_spec then some (spectrogram_output filepath) else none
    let _spec_log : Option PyErr :=
      if generate_spec then generate_spectrogram c filepath (spectrogram_output filepath) theme
      else none
    match get_or_create_sample db (basename filepath) filepath duration sample_rate bpm key spec_path with
    | .error e => (db, .error e)
    | .ok (db1, sample_id) =>
      match track_sample_usage db1 sample_id user_id project_id with
      | .error e => (db1, .error e)
      | .ok db2 =>
        (db2, .ok (some ⟨sample_id, basename filepath, filepath, duration,
                         sample_rate, bpm, key, spec_path⟩))

/-- Lines 127-157: `process_file` — the whole body is guarded by
`try ... except Exception: logging.error(...)`, and `return None` is reached
both when the container guard fails and when any exception was caught. -/
def process_file (c : Collaborators) (filepath : List Char) (generate_spec : Bool)
    (theme : List Char) (user_id project_id : ℤ) (db : Store) :
    Store × Option SampleRecord :=
  match process_file_try c filepath generate_spec theme user_id project_id db with
  | (db1, .ok v) => (db1, v)
  | (db1, .error _e) => (db1, none)

/-- The container metadata of the file is successfully read: `mutagen.File`
returns a truthy object with `info` and does not raise. -/
def analysisSucceeds (c : Collaborators) (filepath : List Char) : Bool :=
  match c.audioFile filepath with
  | .ok (some _) => true
  | _ => false

/-- Linearization of the thread-pool execution of `executor.map` over
`files`: the tasks' store operations take effect in the completion order
`order`, and each task's result is stored at its own input position. -/
def runSchedule (c : Collaborators) (generate_spec : Bool) (theme : List Char)
    (user_id project_id : ℤ) (files : List (List Char)) :
    Store → List Nat → Store × (Nat → Option SampleRecord)
  | st, [] => (st, fun _ => none)
  | st, i :: rest =>
    match files.get? i with
    | none => runSchedule c generate_spec theme user_id project_id files st rest
    | some f =>
      let pr := process_file c f generate_spec theme user_id project_id st
      let tailRun := runSchedule c generate_spec theme user_id project_id files pr.1 rest
      (tailRun.1, fun j => if j = i then pr.2 else tailRun.2 j)

/-- The observable outcome of one `scan_directory_async` call: the store
after all registrations, the returned `samples` list, the logged
`daw_projects` list, and whether a `ThreadPoolExecutor` was created. -/
structure ScanResult where
  store : Store
  samples : List SampleRecord
  daw_projects : List (List Char)
  poolCreated : Bool
  deriving DecidableEq, Repr

/-- Lines 169-180: `scan_directory_async` — build `files_to_process` and
`daw_projects`; if there are files, run them through the pool and collect
`filter(None, results)` positionally (`executor.map` yields results in input
order); otherwise return the empty `samples` without creating a pool. -/
def scan_directory_async (c : Collaborators) (fs : FileSystem) (generate_spec : Bool)
    (theme : List Char) (user_id project_id : ℤ) (db : Store) (order : List Nat) :
    ScanResult :=
  let files := files_to_process fs
  let daw_projects := scan_daw_files fs
  if files.isEmpty then ⟨db, [], daw_projects, false⟩
  else
    let run := runSchedule c generate_spec theme user_id project_id files db order
    ⟨run.1, (List.range files.length).filterMap run.2, daw_projects, true⟩

/-- The names bound at the top level of the module `beat_organizer.py`
(imports, lines 11-24, and the module-level definitions): the namespace in
which `main` resolves the call `connect_db()` at line 215. -/
def moduleTopLevelNames : List String :=
  ["argparse", "os", "json", "logging", "psycopg2", "DictCursor", "librosa",
   "np", "AudioFile", "ThreadPoolExecutor", "plt", "APIRouter", "Depends",
   "HTTPException", "BaseModel", "get_db", "DAW_EXTENSIONS", "AUDIO_EXTENSIONS",
   "router", "SampleOrganizeInput", "get_bpm", "get_key", "generate_spectrogram",
   "get_or_create_sample", "track_sample_usage", "process_file", "scan_daw_files",
   "scan_directory_async", "organize_samples", "main"]

/-- Whether the name `connect_db` called at line 215 is defined anywhere in
the module (it is neither imported nor defined, and it is not a builtin). -/
def connect_db_defined : Bool := moduleTopLevelNames.contains "connect_db"

/-- An uncaught Python exception escaping `main`: the interpreter prints a
traceback and the process exits non-zero. -/
inductive PyExc where
  | nameError (nm : String)
  | other (e : PyErr)
  deriving DecidableEq, Repr

/-- The parsed CLI arguments of `main` (lines 206-214). -/
structure CliArgs where
  directory : List Char
  user_id : ℤ
  project_id : ℤ
  report : Bool
  spectrogram : Bool
  theme : List Char
  deriving DecidableEq, Repr

/-- Lines 205-226: `main`.  `conn = connect_db()` resolves the name
`connect_db` in the module (then builtin) namespace; an unbound name raises
`NameError`, which nothing in `main` catches.  Were the name bound, its
result is modelled by `connection : Option Store` (`None`-like on a failed
connection, on which `main` logs and returns normally, i.e. exit status 0);
otherwise the scan runs and, with `--report`, the samples list is serialized.
A `.error` result models a non-zero process exit, `.ok` a zero exit. -/
def main (args : CliArgs) (c : Collaborators) (fs : FileSystem)
    (connection : Option Store) (order : List Nat) :
    Except PyExc (Option (List SampleRecord)) :=
  if !connect_db_defined then .error (.nameError "connect_db")
  else
    match connection with
    | none => .ok none
    | some conn =>
      let samples := (scan_directory_async c fs args.spectrogram args.theme
        args.user_id args.project_id conn order).samples
      .ok (some samples)

/-- A JSON value, as produced by `json.dump` at line 222 (numbers are
modelled as rationals). -/
inductive JValue where
  | null
  | num (q : ℚ)
  | str (s : List Char)
  | arr (xs : List JValue)
  | obj (fields : List (List Char × JValue))

/-- Serialization of one optional number field. -/
def jOfOptNat : Option Nat → JValue
  | none => .null
  | some n => .num n

/-- Serialization of one optional integer field. -/
def jOfOptInt : Option ℤ → JValue
  | none => .null
  | some z => .num z

/-- Serialization of one optional string field. -/
def jOfOptStr : Option (List Char) → JValue
  | none => .null
  | some s => .str s

/-- The eight field names of the dictionary of lines 145-154, in insertion
order. -/
def reportKeys : List (List Char) :=
  ["sample_id".toList, "filename".toList, "path".toList, "duration".toList,
   "sample_rate".toList, "bpm".toList, "key".toList, "spectrogram".toList]

/-- The JSON object `json.dump` writes for one record of `samples`: the
dictionary literal of lines 145-154, keys in insertion order. -/
def recordToJson (r : SampleRecord) : JValue :=
  .obj [(reportKeys.getD 0 [], .num r.sample_id),
        (reportKeys.getD 1 [], .str r.filename),
        (reportKeys.getD 2 [], .str r.path),
        (reportKeys.getD 3 [], .num r.duration),
        (reportKeys.getD 4 [], jOfOptNat r.sample_rate),
        (reportKeys.getD 5 [], jOfOptInt r.bpm),
        (reportKeys.getD 6 [], jOfOptStr r.key),
        (reportKeys.getD 7 [], jOfOptStr r.spectrogram)]

/-- Line 222: the structured text written to `samples_report.json` is the
rendering of this JSON value. -/
def reportToJson (rs : List SampleRecord) : JValue := .arr (rs.map recordToJson)

/-- A JSON number that must be a non-negative integer (a sample id or rate). -/
def jToNat : JValue → Option Nat
  | .num q => if q.den = 1 then some q.num.toNat else none
  | _ => none

/-- A JSON number that must be an integer. -/
def jToInt : JValue → Option ℤ
  | .num q => if q.den = 1 then some q.num else none
  | _ => none

/-- `null` or a non-negative integer. -/
def jToOptNat : JValue → Option (Option Nat)
  | .null => some none
  | v => (jToNat v).map some

/-- `null` or an integer. -/
def jToOptInt : JValue → Option (Option ℤ)
  | .null => some none
  | v => (jToInt v).map some

/-- `null` or a string. -/
def jToOptStr : JValue → Option (Option (List Char))
  | .null => some none
  | .str s => some (some s)
  | _ => none

/-- Modelled from the spec: the repository has no parser for the report file
(`json.dump` at line 222 is write-only), so §8's round-trip sentence
("serializing a BatchReport to structured text and parsing it back yields
field-for-field equality") requires a parser of the serialized form.  One
record is an object carrying exactly the eight fields of the dictionary of
lines 145-154, in order; each field value is decoded at its declared type. -/
def parseRecord : JValue → Option SampleRecord
  | .obj [(k1, sidJ), (k2, fnJ), (k3, pathJ), (k4, durJ),
          (k5, srJ), (k6, bpmJ), (k7, keyJ), (k8, specJ)] =>
    if [k1, k2, k3, k4, k5, k6, k7, k8] = reportKeys then do
      let sid ← jToNat sidJ
      let fn ← match fnJ with | .str s => some s | _ => none
      let path ← match pathJ with | .str s => some s | _ => none
      let dur ← match durJ with | .num q => some q | _ => none
      let sr ← jToOptNat srJ
      let bpm ← jToOptInt bpmJ
      let key ← jToOptStr keyJ
      let spec ← jToOptStr specJ
      pure ⟨sid, fn, path, dur, sr, bpm, key, spec⟩
    else none
  | _ => none

/-- Modelled from the spec: parse a serialized batch report — an array of
record objects, each of which must parse. -/
def parseRecords : List JValue → Option (List SampleRecord)
  | [] => some []
  | j :: tl => do
    let r ← parseRecord j
    let rs ← parseRecords tl
    pure (r :: rs)

/-- Modelled from the spec: parse the report file's JSON value. -/
def parseReport : JValue → Option (List SampleRecord)
  | .arr xs => parseRecords xs
  | _ => none

/-- Whether an external call returned normally. -/
def exceptOk {α : Type} : Except PyErr α → Bool
  | .ok _ => true
  | .error _ => false

/-- The triple of fault-injection flags of a store, used to state that the
pipeline's own writes never change the store's failure behaviour. -/
def storeFlags (st : Store) : Bool × Bool × Bool :=
  (st.failLookup, st.failInsertSample, st.failInsertUsage)

/-! Concrete test fixtures used by witnesses and counterexamples. -/

/-- An empty, healthy store. -/
def stEmpty : Store := ⟨[], [], 1, 0, false, false, false⟩

/-- A store whose `SELECT` in `get_or_create_sample` raises. -/
def stLookupFails : Store := ⟨[], [], 1, 0, true, false, false⟩

/-- Collaborators for which every analysis succeeds: every container reads as
2.00 s at 44100 Hz, tempo 120, chroma argmax 0 (pitch class C), and the
spectrogram renders. -/
def cHappy : Collaborators :=
  { audioFile := fun _ => .ok (some ⟨2, some 44100⟩)
    beatTrack := fun _ => .ok 120
    chromaArgmax := fun _ => .ok 0
    specshow := fun _ _ _ => .ok () }

/-- Like `cHappy`, but spectrogram rendering raises. -/
def cSpecRenderFails : Collaborators :=
  { cHappy with specshow := fun _ _ _ => .error ⟨"render failed".toList⟩ }

/-- Like `cHappy`, but tempo estimation raises. -/
def cNoTempo : Collaborators :=
  { cHappy with beatTrack := fun _ => .error ⟨"tempo failed".toList⟩ }

/-- Like `cHappy`, but the container read of `beats/b.mp3` raises. -/
def cSecondBad : Collaborators :=
  { cHappy with
      audioFile := fun p =>
        if p = pathJoin "beats".toList "b.mp3".toList then .error ⟨"bad container".toList⟩
        else .ok (some ⟨2, some 44100⟩) }

/-- A directory with two audio files and one non-audio file. -/
def fsBeats : FileSystem :=
  ⟨true, [("beats".toList, ["a.wav".toList, "b.mp3".toList, "notes.txt".toList])]⟩

/-- A directory containing only non-audio files. -/
def fsNoAudio : FileSystem :=
  ⟨true, [("beats".toList, ["song.als".toList, "readme.md".toList])]⟩

/-- A directory with a single audio file. -/
def fsOneAudio : FileSystem := ⟨true, [("beats".toList, ["a.wav".toList])]⟩

/-- A non-existent or unreadable root (`os.walk` yields nothing). -/
def fsUnreadable : FileSystem := ⟨false, [("beats".toList, ["a.wav".toList])]⟩

/-- The path of the single audio file of `fsOneAudio`. -/
def pBeatsA : List Char := pathJoin "beats".toList "a.wav".toList

/-! ### Suffix lemmas -/

theorem hasSuffix_eq_drop {l s : List Char} (h : hasSuffix l s = true) :
    List.drop (l.length - s.length) l = s := by
  simpa [hasSuffix] using h

theorem length_le_of_hasSuffix {l s : List Char} (h : hasSuffix l s = true) :
    s.length ≤ l.length := by
  have e := hasSuffix_eq_drop h
  have hlen := List.length_drop (l.length - s.length) l
  rw [e] at hlen
  omega

theorem hasSuffix_of_hasSuffix_le {l s1 s2 : List Char} (h1 : hasSuffix l s1 = true)
    (h2 : hasSuffix l s2 = true) (hle : s1.length ≤ s2.length) :
    hasSuffix s2 s1 = true := by
  have e1 := hasSuffix_eq_drop h1
  have e2 := hasSuffix_eq_drop h2
  have hl1 := length_le_of_hasSuffix h1
  have hl2 := length_le_of_hasSuffix h2
  have key : List.drop (s2.length - s1.length) s2 = s1 := by
    have step : List.drop (s2.length - s1.length) (List.drop (l.length - s2.length) l)
        = List.drop (l.length - s1.length) l := by
      rw [List.drop_drop]
      congr 1
      omega
    rw [e2] at step
    rw [e1] at step
    exact step
  simp [hasSuffix, key]

theorem lowerStr_length (s : List Char) : (lowerStr s).length = s.length :=
  List.length_map s lowerChar

theorem hasSuffix_lowerStr {l s : List Char} (h : hasSuffix l s = true) :
    hasSuffix (lowerStr l) (lowerStr s) = true := by
  have e := hasSuffix_eq_drop h
  have key : List.drop ((lowerStr l).length - (lowerStr s).length) (lowerStr l) = lowerStr s := by
    simp only [lowerStr, List.length_map, ← List.map_drop, e]
  simp [hasSuffix, key]

/-- No name suffix can certify both an audio extension and a DAW project
extension: for every pair, neither string is (case-normalized) a suffix of
the other. -/
theorem audio_daw_pair_check :
    (AUDIO_EXTENSIONS.all (fun a => dawExtValues.all (fun d =>
      !hasSuffix (lowerStr d) a && !hasSuffix a (lowerStr d)))) = true := by decide

theorem audio_daw_disjoint (nm : List Char) :
    (isAudioName nm && isDawName nm) = false := by
  by_contra hcon
  have hboth : isAudioName nm = true ∧ isDawName nm = true := by
    rcases h1 : isAudioName nm <;> rcases h2 : isDawName nm <;> simp_all
  obtain ⟨ha, hd⟩ := hboth
  obtain ⟨a, hamem, hasuf⟩ := List.any_eq_true.mp ha
  obtain ⟨d, hdmem, hdsuf⟩ := List.any_eq_true.mp hd
  have hdl : hasSuffix (lowerStr nm) (lowerStr d) = true := hasSuffix_lowerStr hdsuf
  have hcheck := List.all_eq_true.mp (List.all_eq_true.mp audio_daw_pair_check a hamem) d hdmem
  have hc : hasSuffix (lowerStr d) a = false ∧ hasSuffix a (lowerStr d) = false := by
    rcases h1 : hasSuffix (lowerStr d) a <;> rcases h2 : hasSuffix a (lowerStr d) <;>
      simp_all
  rcases le_total a.length (lowerStr d).length with hle | hle
  · have := hasSuffix_of_hasSuffix_le hasuf hdl hle
    rw [hc.1] at this
    cases this
  · have := hasSuffix_of_hasSuffix_le hdl hasuf hle
    rw [hc.2] at this
    cases this

/-! ### Store and per-file analyzer lemmas -/

theorem noFail_spec {st : Store} (h : noFail st = true) :
    st.failLookup = false ∧ st.failInsertSample = false ∧ st.failInsertUsage = false := by
  simpa [noFail, Bool.and_eq_true, Bool.not_eq_true', and_assoc] using h

theorem noFail_of_storeFlags {a b : Store} (h : storeFlags a = storeFlags b) :
    noFail a = noFail b := by
  simp only [storeFlags, Prod.mk.injEq] at h
  simp [noFail, h.1, h.2.1, h.2.2]

theorem failLookup_of_storeFlags {a b : Store} (h : storeFlags a = storeFlags b) :
    a.failLookup = b.failLookup := by
  simp only [storeFlags, Prod.mk.injEq] at h
  exact h.1

theorem get_or_create_sample_flags {db : Store} {fn p : List Char} {dur : ℚ}
    {sr : Option Nat} {bpm : Option ℤ} {key : Option (List Char)}
    {spec : Option (List Char)} {db1 : Store} {sid : Nat}
    (h : get_or_create_sample db fn p dur sr bpm key spec = .ok (db1, sid)) :
    storeFlags db1 = storeFlags db := by
  unfold get_or_create_sample at h
  split at h
  · simp at h
  · split at h
    · simp only [Except.ok.injEq, Prod.mk.injEq] at h
      obtain ⟨h1, _h2⟩ := h
      subst h1
      rfl
    · split at h
      · simp at h
      · simp only [Except.ok.injEq, Prod.mk.injEq] at h
        obtain ⟨h1, _h2⟩ := h
        subst h1
        rfl

theorem track_sample_usage_flags {db : Store} {sid : Nat} {u pj : ℤ} {db1 : Store}
    (h : track_sample_usage db sid u pj = .ok db1) : storeFlags db1 = storeFlags db := by
  unfold track_sample_usage at h
  split at h
  · simp at h
  · simp only [Except.ok.injEq] at h
    subst h
    rfl

theorem process_file_try_flags (c : Collaborators) (fp : List Char) (gs : Bool)
    (th : List Char) (u pj : ℤ) (db : Store) :
    storeFlags (process_file_try c fp gs th u pj db).1 = storeFlags db := by
  unfold process_file_try
  cases hA : c.audioFile fp with
  | error e => rfl
  | ok o =>
    cases o with
    | none => rfl
    | some info =>
      simp only
      split
      · rfl
      · rename_i db1 sid heq
        split
        · rename_i e heq2
          exact get_or_create_sample_flags heq
        · rename_i db2 heq2
          calc storeFlags db2 = storeFlags db1 := track_sample_usage_flags heq2
            _ = storeFlags db := get_or_create_sample_flags heq

theorem process_file_flags (c : Collaborators) (fp : List Char) (gs : Bool)
    (th : List Char) (u pj : ℤ) (db : Store) :
    storeFlags (process_file c fp gs th u pj db).1 = storeFlags db := by
  have h := process_file_try_flags c fp gs th u pj db
  unfold process_file
  split <;> rename_i db1 heq <;> rw [heq] at h <;> exact h

theorem get_or_create_sample_ok_of_noFail {db : Store} (h1 : db.failLookup = false)
    (h2 : db.failInsertSample = false) (fn p : List Char) (dur : ℚ) (sr : Option Nat)
    (bpm : Option ℤ) (key : Option (List Char)) (spec : Option (List Char)) :
    ∃ db1 sid, get_or_create_sample db fn p dur sr bpm key spec = .ok (db1, sid) := by
  unfold get_or_create_sample
  rw [if_neg (by simp [h1])]
  cases hF : find_sample_id db.samples p with
  | none =>
    simp only [hF]
    rw [if_neg (by simp [h2])]
    exact ⟨_, _, rfl⟩
  | some id =>
    simp only [hF]
    exact ⟨db, id, rfl⟩

theorem process_file_ok_of_noFail {db : Store} (c : Collaborators) (fp : List Char)
    (gs : Bool) (th : List Char) (u pj : ℤ) (info : ContainerInfo)
    (hnf : noFail db = true) (hA : c.audioFile fp = .ok (some info)) :
    ∃ sid, (process_file c fp gs th u pj db).2 =
      some ⟨sid, basename fp, fp, pyRound2 info.length, info.sample_rate,
            get_bpm c fp, get_key c fp,
            if gs then some (spectrogram_output fp) else none⟩ := by
  obtain ⟨hL, hS, hU⟩ := noFail_spec hnf
  obtain ⟨db1, sid, hG⟩ := get_or_create_sample_ok_of_noFail hL hS (basename fp) fp
    (pyRound2 info.length) info.sample_rate (get_bpm c fp) (get_key c fp)
    (if gs then some (spectrogram_output fp) else none)
  have hU1 : db1.failInsertUsage = false := by
    have hf := get_or_create_sample_flags hG
    simp only [storeFlags, Prod.mk.injEq] at hf
    exact hf.2.2.trans hU
  refine ⟨sid, ?_⟩
  unfold process_file process_file_try
  rw [hA]
  simp only [hG]
  unfold track_sample_usage
  rw [if_neg (by simp [hU1])]

theorem process_file_none_of_analysis_fails (c : Collaborators) (fp : List Char)
    (gs : Bool) (th : List Char) (u pj : ℤ) (db : Store)
    (h : analysisSucceeds c fp = false) :
    (process_file c fp gs th u pj db).2 = none := by
  unfold analysisSucceeds at h
  unfold process_file process_file_try
  cases hA : c.audioFile fp with
  | error e => simp [hA]
  | ok o =>
    cases o with
    | none => simp [hA]
    | some info => rw [hA] at h; simp at h

theorem process_file_path_of_noFail (c : Collaborators) (fp : List Char) (gs : Bool)
    (th : List Char) (u pj : ℤ) {db : Store} (hnf : noFail db = true) :
    ((process_file c fp gs th u pj db).2).map (fun r => r.path) =
      if analysisSucceeds c fp then some fp else none := by
  cases hs : analysisSucceeds c fp with
  | false => rw [process_file_none_of_analysis_fails c fp gs th u pj db hs]; rfl
  | true =>
    unfold analysisSucceeds at hs
    cases hA : c.audioFile fp with
    | error e => rw [hA] at hs; simp at hs
    | ok o =>
      cases o with
      | none => rw [hA] at hs; simp at hs
      | some info =>
        obtain ⟨sid, h⟩ := process_file_ok_of_noFail c fp gs th u pj info hnf hA
        rw [h]
        rfl

theorem process_file_none_of_register_error {db : Store} (c : Collaborators)
    (fp : List Char) (gs : Bool) (th : List Char) (u pj : ℤ) (e : PyErr)
    (info : ContainerInfo) (hA : c.audioFile fp = .ok (some info))
    (hR : registerSample db (basename fp) fp (pyRound2 info.length) info.sample_rate
            (get_bpm c fp) (get_key c fp)
            (if gs then some (spectrogram_output fp) else none) u pj = .error e) :
    (process_file c fp gs th u pj db).2 = none := by
  unfold process_file process_file_try
  rw [hA]
  simp only
  unfold registerSample at hR
  cases hG : get_or_create_sample db (basename fp) fp (pyRound2 info.length)
      info.sample_rate (get_bpm c fp) (get_key c fp)
      (if gs then some (spectrogram_output fp) else none) with
  | error e2 => simp [hG]
  | ok pr =>
    obtain ⟨db1, sid⟩ := pr
    simp only [hG] at hR
    simp only [hG]
    cases hT : track_sample_usage db1 sid u pj with
    | error e3 => simp [hT]
    | ok db2 =>
      rw [hT] at hR
      simp at hR

theorem process_file_none_of_failLookup (c : Collaborators) (fp : List Char)
    (gs : Bool) (th : List Char) (u pj : ℤ) {db : Store}
    (h : db.failLookup = true) :
    (process_file c fp gs th u pj db).2 = none := by
  unfold process_file process_file_try
  cases hA : c.audioFile fp with
  | error e => simp [hA]
  | ok o =>
    cases o with
    | none => simp [hA]
    | some info =>
      simp only
      unfold get_or_create_sample
      rw [if_pos (by simp [h])]

/-! ### Schedule and collection lemmas -/

theorem runSchedule_flags (c : Collaborators) (gs : Bool) (th : List Char)
    (u pj : ℤ) (files : List (List Char)) :
    ∀ (order : List Nat) (st : Store),
      storeFlags (runSchedule c gs th u pj files st order).1 = storeFlags st := by
  intro order
  induction order with
  | nil => intro st; rfl
  | cons i rest ih =>
    intro st
    unfold runSchedule
    cases hgi : files.get? i with
    | none => exact ih st
    | some f =>
      simp only
      calc storeFlags (runSchedule c gs th u pj files
              (process_file c f gs th u pj st).1 rest).1
          = storeFlags (process_file c f gs th u pj st).1 :=
            ih (process_file c f gs th u pj st).1
        _ = storeFlags st := process_file_flags c f gs th u pj st

theorem runSchedule_slot (c : Collaborators) (gs : Bool) (th : List Char)
    (u pj : ℤ) (files : List (List Char)) :
    ∀ (order : List Nat) (st : Store), noFail st = true → ∀ j : Nat,
      (((runSchedule c gs th u pj files st order).2 j).map (fun r => r.path)) =
        if j ∈ order then
          (files.get? j).bind (fun f => if analysisSucceeds c f then some f else none)
        else none := by
  intro order
  induction order with
  | nil => intro st _ j; simp [runSchedule]
  | cons i rest ih =>
    intro st hnf j
    unfold runSchedule
    cases hgi : files.get? i with
    | none =>
      rw [ih st hnf j]
      rw [List.get?_eq_getElem?] at hgi
      by_cases hj : j = i
      · subst hj
        by_cases hm : j ∈ rest <;> simp [hm, hgi, List.mem_cons]
      · simp [List.mem_cons, hj]
    | some f =>
      simp only
      by_cases hj : j = i
      · subst hj
        rw [List.get?_eq_getElem?] at hgi
        have hpf := process_file_path_of_noFail c f gs th u pj hnf
        simp [hgi, hpf]
      · have hnf1 : noFail (process_file c f gs th u pj st).1 = true := by
          rw [noFail_of_storeFlags (process_file_flags c f gs th u pj st)]
          exact hnf
        simp [hj, ih _ hnf1 j, List.mem_cons]

theorem runSchedule_none_of_failLookup (c : Collaborators) (gs : Bool) (th : List Char)
    (u pj : ℤ) (files : List (List Char)) :
    ∀ (order : List Nat) (st : Store), st.failLookup = true → ∀ j : Nat,
      (runSchedule c gs th u pj files st order).2 j = none := by
  intro order
  induction order with
  | nil => intro st _ j; rfl
  | cons i rest ih =>
    intro st hfl j
    unfold runSchedule
    cases hgi : files.get? i with
    | none => exact ih st hfl j
    | some f =>
      simp only
      have hfl1 : (process_file c f gs th u pj st).1.failLookup = true := by
        rw [failLookup_of_storeFlags (process_file_flags c f gs th u pj st)]
        exact hfl
      by_cases hj : j = i
      · subst hj
        simp [process_file_none_of_failLookup c f gs th u pj hfl]
      · simp [hj, ih _ hfl1 j]

theorem filterMap_range_get {α : Type} [Inhabited α] (G : α → Option α) :
    ∀ l : List α,
      (List.range l.length).filterMap (fun j => (l.get? j).bind G) = l.filterMap G := by
  intro l
  induction l with
  | nil => simp
  | cons a t ih =>
    rw [List.length_cons, List.range_succ_eq_map, List.filterMap_cons]
    have hcomp : (List.range t.length).filterMap
        ((fun j => ((a :: t).get? j).bind G) ∘ Nat.succ)
        = (List.range t.length).filterMap (fun j => (t.get? j).bind G) := by
      apply List.filterMap_congr
      intro x _
      simp [Function.comp, List.get?_cons_succ]
    cases hga : G a with
    | none =>
      simp only [List.get?_cons_zero, Option.some_bind, hga]
      rw [List.filterMap_map, hcomp, ih]
      simp [List.filterMap_cons, hga]
    | some b =>
      simp only [List.get?_cons_zero, Option.some_bind, hga]
      rw [List.filterMap_map, hcomp, ih]
      simp [List.filterMap_cons, hga]

theorem filterMap_if_eq_filter {α : Type} (p : α → Bool) :
    ∀ l : List α, l.filterMap (fun f => if p f then some f else none) = l.filter p := by
  intro l
  induction l with
  | nil => rfl
  | cons a t ih => by_cases h : p a <;> simp [List.filterMap_cons, List.filter_cons, h, ih]

theorem files_to_process_nil_of_no_audio {fs : FileSystem}
    (h : (osWalk fs).all (fun e => e.2.all (fun nm => !isAudioName nm)) = true) :
    files_to_process fs = [] := by
  rw [List.eq_nil_iff_forall_not_mem]
  intro p hp
  rw [files_to_process, List.mem_flatMap] at hp
  obtain ⟨e, he, hpe⟩ := hp
  rw [List.mem_map] at hpe
  obtain ⟨nm, hnm, _⟩ := hpe
  rw [List.mem_filter] at hnm
  have hall := List.all_eq_true.mp (List.all_eq_true.mp h e he) nm hnm.1
  simp only [Bool.not_eq_true'] at hall
  rw [hall] at hnm
  exact Bool.false_ne_true hnm.2

/-! ### Report serialization lemmas -/

theorem parseRecord_recordToJson (r : SampleRecord) :
    parseRecord (recordToJson r) = some r := by
  obtain ⟨sid, fn, path, dur, sr, bpm, key, spec⟩ := r
  cases sr <;> cases bpm <;> cases key <;> cases spec <;>
    simp [recordToJson, parseRecord, jOfOptNat, jOfOptInt, jOfOptStr,
      jToNat, jToInt, jToOptNat, jToOptInt, jToOptStr, Option.bind] <;>
    decide

theorem parseRecords_map (rs : List SampleRecord) :
    parseRecords (rs.map recordToJson) = some rs := by
  induction rs with
  | nil => rfl
  | cons r tl ih =>
    simp [parseRecords, parseRecord_recordToJson, ih, Option.bind]

/-! ### Claim theorems -/

/-- C10: `process_file` is total at the coordinator boundary.  For every
collaborator behaviour, store state and parameter combination, the function
returns the threaded store paired with either a record or `none`; whenever
the guarded body raises (container read, registration — the only stages that
can raise, since tempo, key and spectrogram handle their own exceptions),
the blanket `except` converts the exception into the `None` result instead
of propagating it into `executor.map`'s collection in
`scan_directory_async`. -/
theorem process_file_total_at_boundary (c : Collaborators) (fp : List Char) (gs : Bool)
    (th : List Char) (u pj : ℤ) (db : Store) :
    process_file c fp gs th u pj db =
      ((process_file_try c fp gs th u pj db).1,
        match (process_file_try c fp gs th u pj db).2 with
        | .ok v => v
        | .error _ => none) := by
  rcases h : process_file_try c fp gs th u pj db with ⟨db1, r⟩
  unfold process_file
  rw [h]
  cases r <;> rfl

/-- C6 (code bug): line 215 of `main` calls `connect_db()`, but no top-level
name `connect_db` is defined or imported anywhere in the module, so every CLI
invocation — including one with a perfectly good directory and store — raises
an uncaught `NameError` and exits non-zero, contradicting the claim that the
exit status is non-zero exactly on discovery-level failures.  (Moreover, had
the connection merely failed, `main` logs and returns normally, i.e. exit
status 0, again contradicting the claim.) -/
theorem main_always_raises_nameError (args : CliArgs) (c : Collaborators)
    (fs : FileSystem) (connection : Option Store) (order : List Nat) :
    main args c fs connection order = .error (.nameError "connect_db") := by
  have h : connect_db_defined = false := by decide
  simp [main, h]

/-- C5 (amended): a non-existent or unreadable root is not surfaced as an
error: `os.walk` with its default `onerror=None` swallows the `OSError` and
yields nothing, so `scan_directory_async` returns a perfectly normal empty
report (and never creates a worker pool).  No `DiscoveryError` exists
anywhere in the code. -/
theorem unreadable_root_yields_empty_report (c : Collaborators) (gs : Bool)
    (th : List Char) (u pj : ℤ) (st : Store) (order : List Nat)
    (entries : List (List Char × List (List Char))) :
    scan_directory_async c ⟨false, entries⟩ gs th u pj st order = ⟨st, [], [], false⟩ :=
  rfl

/-- C5 (counterexample): scanning an unreadable root returns a normal result
— indistinguishable from scanning an empty readable directory — instead of
failing with an error surfaced to the caller. -/
theorem unreadable_root_normal_result_cex :
    scan_directory_async cHappy fsUnreadable false "light".toList 1 1 stEmpty [0]
        = ⟨stEmpty, [], [], false⟩
    ∧ scan_directory_async cHappy fsUnreadable false "light".toList 1 1 stEmpty [0]
        = scan_directory_async cHappy ⟨true, []⟩ false "light".toList 1 1 stEmpty [0] :=
  ⟨rfl, rfl⟩

/-- C9: serializing a batch report to the structured text of
`samples_report.json` and parsing it back is the identity, field for field.
(The parser is modelled from the spec: the code only ever writes the file.) -/
theorem report_serialization_roundtrip (rs : List SampleRecord) :
    parseReport (reportToJson rs) = some rs := by
  simp [parseReport, reportToJson, parseRecords_map]

/-- C7: if the recursive walk yields no audio candidate file, the report is
empty and the `with ThreadPoolExecutor()` block is never entered: the empty
`files_to_process` short-circuits the `if files_to_process:` guard. -/
theorem no_audio_candidates_empty_report_no_pool (c : Collaborators) (fs : FileSystem)
    (gs : Bool) (th : List Char) (u pj : ℤ) (st : Store) (order : List Nat)
    (h : (osWalk fs).all (fun e => e.2.all (fun nm => !isAudioName nm)) = true) :
    (scan_directory_async c fs gs th u pj st order).samples = []
      ∧ (scan_directory_async c fs gs th u pj st order).poolCreated = false := by
  have hf := files_to_process_nil_of_no_audio h
  constructor <;> simp [scan_directory_async, hf]

theorem no_audio_candidates_empty_report_no_pool_witness :
    ((osWalk fsNoAudio).all (fun e => e.2.all (fun nm => !isAudioName nm)) = true)
    ∧ (scan_directory_async cHappy fsNoAudio false "light".toList 1 1 stEmpty []).samples = []
    ∧ (scan_directory_async cHappy fsNoAudio false "light".toList 1 1 stEmpty []).poolCreated
        = false := by
  refine ⟨by decide, ?_, ?_⟩
  · exact (no_audio_candidates_empty_report_no_pool cHappy fsNoAudio false "light".toList
      1 1 stEmpty [] (by decide)).1
  · exact (no_audio_candidates_empty_report_no_pool cHappy fsNoAudio false "light".toList
      1 1 stEmpty [] (by decide)).2

/-- C8: a file name is an audio candidate iff, compared case-insensitively,
it ends with one of `.mp3 .wav .flac .ogg .aiff`; it is a project-file
candidate iff it ends with one of the extensions of the editor table; no name
is both; and the two sequences produced by the walk are exactly the
paths joined from the names so classified. -/
theorem candidate_classification_and_disjointness :
    (∀ nm : List Char, isAudioName nm = true ↔
        ∃ ext ∈ AUDIO_EXTENSIONS, hasSuffix (lowerStr nm) ext = true)
    ∧ (∀ nm : List Char, isDawName nm = true ↔
        ∃ ext ∈ dawExtValues, hasSuffix nm ext = true)
    ∧ (∀ nm : List Char, (isAudioName nm && isDawName nm) = false)
    ∧ (∀ (fs : FileSystem) (p : List Char), p ∈ files_to_process fs ↔
        ∃ e ∈ osWalk fs, ∃ nm ∈ e.2, isAudioName nm = true ∧ p = pathJoin e.1 nm)
    ∧ (∀ (fs : FileSystem) (p : List Char), p ∈ scan_daw_files fs ↔
        ∃ e ∈ osWalk fs, ∃ nm ∈ e.2, isDawName nm = true ∧ p = pathJoin e.1 nm) := by
  refine ⟨?_, ?_, audio_daw_disjoint, ?_, ?_⟩
  · intro nm
    simp [isAudioName, List.any_eq_true]
  · intro nm
    simp [isDawName, List.any_eq_true]
  · intro fs p
    simp only [files_to_process, List.mem_flatMap, List.mem_map, List.mem_filter]
    constructor
    · rintro ⟨e, he, nm, ⟨hnm, haud⟩, rfl⟩
      exact ⟨e, he, nm, hnm, haud, rfl⟩
    · rintro ⟨e, he, nm, hnm, haud, rfl⟩
      exact ⟨e, he, nm, ⟨hnm, haud⟩, rfl⟩
  · intro fs p
    simp only [scan_daw_files, List.mem_flatMap, List.mem_map, List.mem_filter]
    constructor
    · rintro ⟨e, he, nm, ⟨hnm, hdaw⟩, rfl⟩
      exact ⟨e, he, nm, hnm, hdaw, rfl⟩
    · rintro ⟨e, he, nm, hnm, hdaw, rfl⟩
      exact ⟨e, he, nm, ⟨hnm, hdaw⟩, rfl⟩

/-- C1 (counterexample): a file whose container metadata is read successfully
but whose registration raises (here: the store lookup) is ABSENT from the
batch report — `process_file`'s blanket handler catches the re-raised store
error after the record has been built and returns `None`, so `filter(None,
results)` drops the file. -/
theorem scan_drops_record_on_registration_failure_cex :
    cHappy.audioFile pBeatsA = .ok (some ⟨2, some 44100⟩)
    ∧ stLookupFails.failLookup = true
    ∧ (scan_directory_async cHappy fsOneAudio false "light".toList 1 1
        stLookupFails [0]).samples = [] := by
  refine ⟨rfl, rfl, ?_⟩
  decide

/-- C1 (amended): when the container metadata is read successfully but the
registration pair (`get_or_create_sample` then `track_sample_usage`) raises,
the error is logged and the file's record is REMOVED from the report:
`process_file` returns `None` for it. -/
theorem registration_failure_removes_record (c : Collaborators) (fp : List Char)
    (gs : Bool) (th : List Char) (u pj : ℤ) (db : Store) (e : PyErr)
    (info : ContainerInfo) (hA : c.audioFile fp = .ok (some info))
    (hR : registerSample db (basename fp) fp (pyRound2 info.length) info.sample_rate
            (get_bpm c fp) (get_key c fp)
            (if gs then some (spectrogram_output fp) else none) u pj = .error e) :
    (process_file c fp gs th u pj db).2 = none :=
  process_file_none_of_register_error c fp gs th u pj e info hA hR

theorem registration_failure_removes_record_witness :
    cHappy.audioFile pBeatsA = .ok (some ⟨2, some 44100⟩)
    ∧ registerSample stLookupFails (basename pBeatsA) pBeatsA (pyRound2 2) (some 44100)
        (get_bpm cHappy pBeatsA) (get_key cHappy pBeatsA) none 1 1
        = .error ⟨"samples lookup failed".toList⟩
    ∧ (process_file cHappy pBeatsA false "light".toList 1 1 stLookupFails).2 = none := by
  refine ⟨rfl, rfl, ?_⟩
  exact registration_failure_removes_record cHappy pBeatsA false "light".toList 1 1
    stLookupFails ⟨"samples lookup failed".toList⟩ ⟨2, some 44100⟩ rfl rfl

/-- C2 (counterexample): when the spectrogram render stage fails, the emitted
record's `spectrogram` field is NOT absent: `spec_path` is assigned before
`generate_spectrogram` is called, and the render failure is swallowed inside
`generate_spectrogram`, so the record still carries the intended output path
(to an image that was never written). -/
theorem spectrogram_failure_leaves_field_set_cex :
    generate_spectrogram cSpecRenderFails pBeatsA (spectrogram_output pBeatsA)
        "light".toList = some ⟨"render failed".toList⟩
    ∧ ((process_file cSpecRenderFails pBeatsA true "light".toList 1 1 stEmpty).2).map
        (fun r => r.spectrogram) = some (some (spectrogram_output pBeatsA)) := by
  refine ⟨rfl, ?_⟩
  decide

/-- C2 (amended): once the container metadata is read (and the store functions
normally — a registration failure voids the record, see C1), the record is
always emitted: a tempo or key estimation failure leaves exactly that field
absent (`None`), while a spectrogram render failure leaves the record intact
with the `spectrogram` field still set to the derived output path whenever
rendering was requested. -/
theorem optional_stage_failure_keeps_record (c : Collaborators) (fp : List Char)
    (gs : Bool) (th : List Char) (u pj : ℤ) (db : Store) (info : ContainerInfo)
    (hnf : noFail db = true) (hA : c.audioFile fp = .ok (some info)) :
    (∃ sid, (process_file c fp gs th u pj db).2 =
        some ⟨sid, basename fp, fp, pyRound2 info.length, info.sample_rate,
              get_bpm c fp, get_key c fp,
              if gs then some (spectrogram_output fp) else none⟩)
    ∧ (get_bpm c fp).isSome = exceptOk (c.beatTrack fp)
    ∧ (get_key c fp).isSome = exceptOk (c.chromaArgmax fp) := by
  refine ⟨process_file_ok_of_noFail c fp gs th u pj info hnf hA, ?_, ?_⟩
  · unfold get_bpm exceptOk
    cases c.beatTrack fp <;> rfl
  · unfold get_key exceptOk
    cases c.chromaArgmax fp <;> rfl

theorem optional_stage_failure_keeps_record_witness :
    noFail stEmpty = true
    ∧ cNoTempo.audioFile pBeatsA = .ok (some ⟨2, some 44100⟩)
    ∧ cNoTempo.beatTrack pBeatsA = .error ⟨"tempo failed".toList⟩
    ∧ ((∃ sid, (process_file cNoTempo pBeatsA false "light".toList 1 1 stEmpty).2 =
          some ⟨sid, basename pBeatsA, pBeatsA, pyRound2 2, some 44100,
                get_bpm cNoTempo pBeatsA, get_key cNoTempo pBeatsA, none⟩)
        ∧ (get_bpm cNoTempo pBeatsA).isSome = exceptOk (cNoTempo.beatTrack pBeatsA)
        ∧ (get_key cNoTempo pBeatsA).isSome = exceptOk (cNoTempo.chromaArgmax pBeatsA)) := by
  refine ⟨by decide, rfl, rfl, ?_⟩
  exact optional_stage_failure_keeps_record cNoTempo pBeatsA false "light".toList 1 1
    stEmpty ⟨2, some 44100⟩ (by decide) rfl

/-- C3: the report lists the successful files' records in discovery order,
independently of the completion order of the concurrently executing per-file
analyses: for every linearization `order` of the pool's tasks covering all
input positions, the sequence of paths in the returned `samples` equals the
input-order subsequence of `files_to_process` whose container reads succeed —
a right-hand side that does not mention the schedule at all.  (`executor.map`
collects results positionally, not in completion order.) -/
theorem scan_order_deterministic (c : Collaborators) (fs : FileSystem) (gs : Bool)
    (th : List Char) (u pj : ℤ) (st : Store) (order : List Nat)
    (hnf : noFail st = true)
    (hcov : (List.range (files_to_process fs).length).all
      (fun j => order.contains j) = true) :
    ((scan_directory_async c fs gs th u pj st order).samples).map (fun r => r.path)
      = (files_to_process fs).filter (fun f => analysisSucceeds c f) := by
  simp only [scan_directory_async]
  split
  · rename_i hE
    rw [List.isEmpty_iff] at hE
    simp [hE]
  · rename_i hE
    simp only
    rw [List.map_filterMap]
    have hslot := runSchedule_slot c gs th u pj (files_to_process fs) order st hnf
    have hcong : (List.range (files_to_process fs).length).filterMap
        (fun j => Option.map (fun r => r.path)
          ((runSchedule c gs th u pj (files_to_process fs) st order).2 j))
        = (List.range (files_to_process fs).length).filterMap
        (fun j => ((files_to_process fs).get? j).bind
          (fun f => if analysisSucceeds c f then some f else none)) := by
      apply List.filterMap_congr
      intro j hj
      rw [hslot j, if_pos]
      exact List.elem_iff.mp (List.all_eq_true.mp hcov j hj)
    rw [hcong, filterMap_range_get, filterMap_if_eq_filter]

theorem scan_order_deterministic_witness :
    noFail stEmpty = true
    ∧ (List.range (files_to_process fsBeats).length).all
        (fun j => List.contains [1, 0] j) = true
    ∧ ((scan_directory_async cSecondBad fsBeats false "light".toList 1 1
          stEmpty [1, 0]).samples).map (fun r => r.path)
        = (files_to_process fsBeats).filter (fun f => analysisSucceeds cSecondBad f) := by
  refine ⟨by decide, by decide, ?_⟩
  exact scan_order_deterministic cSecondBad fsBeats false "light".toList 1 1 stEmpty
    [1, 0] (by decide) (by decide)

/-- C4: get-or-create is idempotent on the sample table.  Starting from a
normally functioning store with no row for path `p`, two sequential
registrations of `p` (with any metadata, users and projects) both succeed and
leave exactly one sample row for `p`, exactly one new sample row in total,
and exactly two appended usage rows; and for every path the sample-row count
stays below the "at most one row per distinct path" bound. -/
theorem register_same_path_twice_idempotent (st : Store) (fn1 fn2 p : List Char)
    (d1 d2 : ℚ) (sr1 sr2 : Option Nat) (b1 b2 : Option ℤ) (k1 k2 : Option (List Char))
    (sp1 sp2 : Option (List Char)) (u1 u2 pj1 pj2 : ℤ)
    (hnf : noFail st = true)
    (hfresh : st.samples.countP (fun r => r.path == p) = 0) :
    ∃ st1 st2,
      registerSample st fn1 p d1 sr1 b1 k1 sp1 u1 pj1 = .ok st1
      ∧ registerSample st1 fn2 p d2 sr2 b2 k2 sp2 u2 pj2 = .ok st2
      ∧ st2.samples.countP (fun r => r.path == p) = 1
      ∧ st2.samples.length = st.samples.length + 1
      ∧ st2.usage.length = st.usage.length + 2
      ∧ ∀ q : List Char, st2.samples.countP (fun r => r.path == q) ≤
          max 1 (st.samples.countP (fun r => r.path == q)) := by
  obtain ⟨hL, hS, hU⟩ := noFail_spec hnf
  have hnomatch : ∀ r ∈ st.samples, ¬((fun r => r.path == p) r = true) :=
    List.countP_eq_zero.mp hfresh
  have hfind0 : List.find? (fun r => r.path == p) st.samples = none :=
    List.find?_eq_none.mpr hnomatch
  have hfind : find_sample_id st.samples p = none := by
    unfold find_sample_id
    rw [hfind0]
    rfl
  refine ⟨{ st with
              samples := st.samples ++ [⟨st.nextId, fn1, p, d1, sr1, b1, k1, sp1⟩]
              nextId := st.nextId + 1
              usage := st.usage ++ [⟨st.nextId, u1, pj1, st.now⟩]
              now := st.now + 1 },
          { st with
              samples := st.samples ++ [⟨st.nextId, fn1, p, d1, sr1, b1, k1, sp1⟩]
              nextId := st.nextId + 1
              usage := st.usage ++ [⟨st.nextId, u1, pj1, st.now⟩, ⟨st.nextId, u2, pj2, st.now + 1⟩]
              now := st.now + 2 },
          ?_, ?_, ?_, ?_, ?_, ?_⟩
  · unfold registerSample get_or_create_sample
    rw [if_neg (by simp [hL])]
    simp only [hfind]
    rw [if_neg (by simp [hS])]
    unfold track_sample_usage
    simp [hU]
  · unfold registerSample get_or_create_sample
    rw [if_neg (by simp [hL])]
    have hfind1 : find_sample_id
        (st.samples ++ [⟨st.nextId, fn1, p, d1, sr1, b1, k1, sp1⟩]) p
        = some st.nextId := by
      unfold find_sample_id
      rw [List.find?_append, hfind0]
      simp [List.find?]
    simp only [hfind1]
    unfold track_sample_usage
    simp [hU, List.append_assoc]
  · simp [List.countP_append, hfresh, List.countP_cons]
  · simp
  · simp
  · intro q
    rw [List.countP_append]
    by_cases hq : p = q
    · subst hq
      simp [hfresh, List.countP_cons]
    · have : List.countP (fun r => r.path == q)
          [(⟨st.nextId, fn1, p, d1, sr1, b1, k1, sp1⟩ : SampleRow)] = 0 := by
        simp [List.countP_cons, hq]
      rw [this]
      simp

theorem register_same_path_twice_idempotent_witness :
    noFail stEmpty = true
    ∧ stEmpty.samples.countP (fun r => r.path == pBeatsA) = 0
    ∧ ∃ st1 st2,
        registerSample stEmpty "a.wav".toList pBeatsA 2 (some 44100) (some 120)
            (some ['C']) none 1 7 = .ok st1
        ∧ registerSample st1 "a.wav".toList pBeatsA 2 (some 44100) (some 120)
            (some ['C']) none 2 8 = .ok st2
        ∧ st2.samples.countP (fun r => r.path == pBeatsA) = 1
        ∧ st2.samples.length = stEmpty.samples.length + 1
        ∧ st2.usage.length = stEmpty.usage.length + 2
        ∧ ∀ q : List Char, st2.samples.countP (fun r => r.path == q) ≤
            max 1 (stEmpty.samples.countP (fun r => r.path == q)) := by
  refine ⟨by decide, by decide, ?_⟩
  exact register_same_path_twice_idempotent stEmpty "a.wav".toList "a.wav".toList
    pBeatsA 2 2 (some 44100) (some 44100) (some 120) (some 120) (some ['C'])
    (some ['C']) none none 1 2 7 8 (by decide) (by decide)

end BeatOrganizer
